import Mathlib

/-!
Shallow embedding of `src/kramerius.py` (tool downloading paginated PDFs from
a Kramerius server), together with theorems settling the specification claims
about range detection, batch planning, per-batch fetching and assembly.

Strings are modelled as `List Char`; Python integers as `Int` (with Python's
floor division `//` modelled by `Int.fdiv`); the side-effecting parts of the
script (network, filesystem, external processes) are modelled by explicit
event records carrying exactly the data the script computes for them.
-/

namespace KrameriusPy

/-! ### Decimal rendering, modelling Python's `str(n)` -/

/-- The decimal digit character for `d` (callers only use `d < 10`). -/
def digitChar (d : Nat) : Char :=
  match d with
  | 0 => '0' | 1 => '1' | 2 => '2' | 3 => '3' | 4 => '4'
  | 5 => '5' | 6 => '6' | 7 => '7' | 8 => '8' | _ => '9'

/-- Numeric value of a digit character. -/
def digitVal (c : Char) : Nat := c.toNat - 48

/-- Fuel-driven digit expansion (structural recursion, so it evaluates by
kernel reduction); `fuel` strictly exceeds `n` at every call. -/
def natDigitsGo (fuel : Nat) (n : Nat) : List Char :=
  match fuel with
  | 0 => []
  | fuel + 1 =>
    if n < 10 then [digitChar n]
    else natDigitsGo fuel (n / 10) ++ [digitChar (n % 10)]

/-- Decimal digits of a natural number, most significant first: `str(n)`. -/
def natDigits (n : Nat) : List Char := natDigitsGo (n + 1) n

/-- Numeric value of a most-significant-first digit string. -/
def valOfDigits (l : List Char) : Nat :=
  l.foldl (fun a c => 10 * a + digitVal c) 0

/-- Python's `str` of an integer: minus sign for negatives, digits otherwise. -/
def intStr (n : Int) : List Char :=
  if n < 0 then '-' :: natDigits (-n).toNat else natDigits n.toNat

/-! ### Batch planning

The loop at `src/kramerius.py` lines 129–134:
```
for x in range((pages + limit - 1) // limit):
    tstart, tend = 1 + x * limit,  (x + 1) * limit
    tend = tend if tend < pages else pages
    self.__download_pdf(tstart, tend)
```
Note that the loop reads the module-global `limit` (bound in the
`__main__` block), not `self.limit`.  Python's `//` is floor division,
`Int.fdiv`; `range(k)` is empty when `k ≤ 0`, which `Int.toNat` models. -/

/-- Number of loop iterations: `(pages + limit - 1) // limit`. -/
def numBatches (lim pages : Int) : Int := Int.fdiv (pages + lim - 1) lim

/-- The pair `(tstart, tend)` computed for loop index `x`
(lines 130–131; `tend if tend < pages else pages`). -/
def batchBounds (lim pages : Int) (x : Nat) : Int × Int :=
  let tstart : Int := 1 + (x : Int) * lim
  let tend : Int := ((x : Int) + 1) * lim
  (tstart, if tend < pages then tend else pages)

/-- The full sequence of `(tstart, tend)` pairs produced by the loop. -/
def planBatches (lim pages : Int) : List (Int × Int) :=
  (List.range (numBatches lim pages).toNat).map (batchBounds lim pages)

/-! ### Per-batch fetching (`Kramerius.__download_pdf`, lines 158–196)

The method builds the download URL, streams the response to
`os.path.join(self.directory, str(start))`, runs
`pdftk {input} cat 2-{end} output {output}` with `end = end - start + 2` and
`output = file_path + '.pdf'` via `os.system` (exit status ignored), deletes
the raw file, and returns `True` unconditionally. -/

/-- Builds `DOWLOAD_URL_FORMAT.format(...)` (line 60). -/
def downloadUrl (urlBase docId : List Char) (s e : Int) : List Char :=
  urlBase ++ "ontheflypdf_MGetPdf?app=9&id=".toList ++ docId
    ++ "&start=".toList ++ intStr s ++ "&end=".toList ++ intStr e

/-- Builds `CMD_REMOVE_FIRST_PAGE.format(input=..., end=..., output=...)` (line 68). -/
def cmdRemoveFirstPage (input : List Char) (e : Int) (output : List Char) : List Char :=
  "pdftk ".toList ++ input ++ " cat 2-".toList ++ intStr e
    ++ " output ".toList ++ output

/-- Builds `PDF_UNITE_FORMAT.format(directory, output)` (line 73). -/
def cmdPdfUnite (dir output : List Char) : List Char :=
  "pdfunite ".toList ++ dir ++ "/*.pdf ".toList ++ output

/-- Modelled from the spec's wording for §4.3: a `pdftk` command that selects
pages `a` through `b` of `raw`, writing to `out`.  Used to compare the page
selection the code's command string actually encodes against the selection
`2 .. (lastPage - firstPage + 2)` the spec prescribes. -/
def specStripCmd (raw : List Char) (a b : Int) (out : List Char) : List Char :=
  "pdftk ".toList ++ raw ++ (" cat ".toList ++ intStr a ++ "-".toList) ++ intStr b
    ++ " output ".toList ++ out

/-- Observable effects of one `__download_pdf(start, end)` call.
`stripExit` is the environment-supplied exit status of the `pdftk`
invocation (the value `os.system` returns, which the code discards). -/
structure DownloadEvent where
  rawPath : List Char
  url : List Char
  urlStart : Int
  urlEnd : Int
  stripCmd : List Char
  outPath : List Char
  stripExit : Int
  rawRemoved : Bool
  result : Bool
  deriving DecidableEq

/-- Raw scratch path `os.path.join(self.directory, str(start))` (line 173). -/
def rawFilePath (dir : List Char) (s : Int) : List Char := dir ++ '/' :: intStr s

/-- The stripped artifact path `file_path + '.pdf'` (line 192). -/
def artifactPath (dir : List Char) (s : Int) : List Char :=
  rawFilePath dir s ++ ".pdf".toList

/-- Model of `Kramerius.__download_pdf`, lines 158–196. -/
def downloadPdf (dir docId urlBase : List Char) (s e : Int) (stripExitCode : Int) :
    DownloadEvent :=
  let filePath := rawFilePath dir s
  { rawPath := filePath
    url := downloadUrl urlBase docId s e
    urlStart := s
    urlEnd := e
    stripCmd := cmdRemoveFirstPage filePath (e - s + 2) (filePath ++ ".pdf".toList)
    outPath := filePath ++ ".pdf".toList
    stripExit := stripExitCode
    rawRemoved := true
    result := true }

/-! ### The run loop (`Kramerius.run`, lines 111–138) -/

/-- Observable effects of one `run()` call with explicit bounds. -/
structure RunTrace where
  fetches : List DownloadEvent
  mergeCalls : Nat
  mergeCmd : List Char
  mergeExit : Int
  exitSuccess : Bool

/-- Model of `Kramerius.run` for a run with explicit `start`/`end` bounds (so
`__detect_pages` is not called).  `selfLimit` is the `self.limit` attribute
set by `__init__`; `globalLimit` is the module-global `limit` bound in the
`__main__` block — the loop on line 129 reads the global, so `selfLimit`
does not occur in the body.  `stripExits x` / `mergeExitCode` supply the
exit statuses of the external `pdftk` / `pdfunite` processes; `run` ignores
the return value of `__merge_pdfs` (line 137) and falls through to the final
`print`, so the process always terminates successfully. -/
def run (dir docId urlBase output : List Char) (selfLimit globalLimit s e : Int)
    (stripExits : Nat → Int) (mergeExitCode : Int) : RunTrace :=
  let pages := e - s + 1
  { fetches := (List.range (numBatches globalLimit pages).toNat).map
      (fun x => downloadPdf dir docId urlBase
        (batchBounds globalLimit pages x).1 (batchBounds globalLimit pages x).2
        (stripExits x))
    mergeCalls := 1
    mergeCmd := cmdPdfUnite dir output
    mergeExit := mergeExitCode
    exitSuccess := true }

/-- The `(start, end)` query parameters of a fetch, as sent on the wire. -/
def wireParams (ev : DownloadEvent) : Int × Int := (ev.urlStart, ev.urlEnd)

/-! ### Lexicographic filename order

`__merge_pdfs` hands `pdfunite` the shell glob `{directory}/*.pdf`
(line 73/205); the shell expands a glob in lexicographic byte order, which
`lexLt` models for the ASCII filenames the script produces. -/

/-- Strict lexicographic (byte) order on filenames. -/
def lexLt : List Char → List Char → Bool
  | [], [] => false
  | [], _ :: _ => true
  | _ :: _, [] => false
  | a :: as, b :: bs => if a < b then true else if b < a then false else lexLt as bs

/-- The artifact's file name inside the scratch directory: `str(start) + '.pdf'`. -/
def artifactFileName (s : Int) : List Char := intStr s ++ ".pdf".toList

/-! ### Range detection (`Kramerius.__detect_pages`, lines 140–156)

The two patterns are instances of
`DETAIL_RE_PAGE = value=[quote]([0-9]+)[quote][^>]+id=[quote]{id}[quote]`
(line 46, with `{id}` replaced by the fixed field identifier; `[quote]`
stands for the character class of the two quote characters).  The model
implements exactly this pattern family over `List Char`:
`matchValueAt id s` decides whether the pattern matches at the start of `s`
and returns the captured digit group; `reSearch` is `re.search`'s
leftmost-match scan.  The capture is the maximal digit run after the first
quote (a shorter run would have to be followed by a quote, and no digit is
a quote, so greedy matching is exact), and the extent of `[^>]+` never
affects the captured group, so only its existence is tested. -/

/-- The single-quote character `'` (written via its code point). -/
def quoteS : Char := Char.ofNat 39

/-- Membership in the regex character class of the two quote characters. -/
def isQuoteCh (c : Char) : Bool := c = '"' || c = quoteS

/-- Helper `dropLead pat s` returning `s` without the literal `pat` front, if present. -/
def dropLead : List Char → List Char → Option (List Char)
  | [], s => some s
  | _ :: _, [] => none
  | p :: ps, c :: cs => if p = c then dropLead ps cs else none

/-- Does `id=[quote]{id}[quote]` match at the start of `s`? -/
def matchIdLit (docFieldId s : List Char) : Bool :=
  match dropLead ("id=".toList) s with
  | none => false
  | some s1 =>
    match s1 with
    | [] => false
    | q :: s2 =>
      isQuoteCh q &&
        (match dropLead docFieldId s2 with
          | none => false
          | some s3 =>
            match s3 with
            | [] => false
            | q2 :: _ => isQuoteCh q2)

/-- Does `[^>]+id=[quote]{id}[quote]` match at the start of `s`? -/
def matchIdPart (docFieldId : List Char) : List Char → Bool
  | [] => false
  | c :: rest =>
    (c != '>') && (matchIdLit docFieldId rest || matchIdPart docFieldId rest)

/-- Match the full pattern at the start of `s`, returning the digit capture. -/
def matchValueAt (docFieldId s : List Char) : Option (List Char) :=
  match dropLead ("value=".toList) s with
  | none => none
  | some s1 =>
    match s1 with
    | [] => none
    | q :: s2 =>
      if isQuoteCh q then
        let ds := s2.takeWhile Char.isDigit
        match s2.dropWhile Char.isDigit with
        | [] => none
        | q2 :: s4 =>
          if ds.isEmpty then none
          else if isQuoteCh q2 && matchIdPart docFieldId s4 then some ds else none
      else none

/-- Search as `re.search` does: leftmost match wins; returns the digit capture. -/
def reSearch (docFieldId : List Char) : List Char → Option (List Char)
  | [] => none
  | c :: rest =>
    match matchValueAt docFieldId (c :: rest) with
    | some ds => some ds
    | none => reSearch docFieldId rest

/-- The start-page field identifier (line 52). -/
def DETAIL_START_ID : List Char := "ext_ontheflypdf_formStartInput".toList

/-- The end-page field identifier (line 56). -/
def DETAIL_END_ID : List Char := "ext_ontheflypdf_formEndInput".toList

/-- Model of `Kramerius.__detect_pages` applied to a detail-page body: search both
patterns and parse the captured groups as integers (`int(m.group(1))`);
`none` models the `AttributeError` crash when a pattern is absent. -/
def detectPages (content : List Char) : Option (Nat × Nat) :=
  match reSearch DETAIL_START_ID content, reSearch DETAIL_END_ID content with
  | some ds, some de => some (valOfDigits ds, valOfDigits de)
  | _, _ => none

/-- A detail-page fragment tagging the start field with `value="12"`. -/
def startTagC : List Char :=
  "value=\"12\" id=\"ext_ontheflypdf_formStartInput\">".toList

/-- Tail of `startTagC` without its leading `'v'`. -/
def startTagTail : List Char :=
  "alue=\"12\" id=\"ext_ontheflypdf_formStartInput\">".toList

/-- A detail-page fragment tagging the end field with `value="47"`. -/
def endTagC : List Char :=
  "value=\"47\" id=\"ext_ontheflypdf_formEndInput\">".toList

/-- A concrete scratch directory used in closed instances. -/
def dirT : List Char := "/t".toList

/-- A concrete document id used in closed instances (the spec test uses id "100"). -/
def docId100 : List Char := "100".toList

/-- Concrete filler before the start tag in the detection fixture. -/
def fixtureP : List Char := "<html><body>".toList

/-- Concrete filler between the two tags in the detection fixture. -/
def fixtureQ : List Char := " other text ".toList

/-- Concrete filler after the end tag in the detection fixture. -/
def fixtureR : List Char := "</body></html>".toList

/-! ### Theorems: decimal rendering -/

theorem digitVal_digitChar {d : Nat} (h : d < 10) : digitVal (digitChar d) = d := by
  interval_cases d <;> decide

theorem digitChar_isDigit (d : Nat) : (digitChar d).isDigit = true := by
  rcases d with _|_|_|_|_|_|_|_|_|d <;> rfl

theorem natDigitsGo_congr (n : Nat) : ∀ f1 f2, n < f1 → n < f2 →
    natDigitsGo f1 n = natDigitsGo f2 n := by
  induction n using Nat.strong_induction_on with
  | _ n ih =>
    intro f1 f2 h1 h2
    match f1, f2 with
    | a + 1, b + 1 =>
      show (if n < 10 then [digitChar n]
          else natDigitsGo a (n / 10) ++ [digitChar (n % 10)])
        = (if n < 10 then [digitChar n]
          else natDigitsGo b (n / 10) ++ [digitChar (n % 10)])
      split
      · rfl
      · next h =>
        rw [ih (n / 10) (Nat.div_lt_self (by omega) (by omega)) a b
          (by omega) (by omega)]

theorem natDigits_eq (n : Nat) : natDigits n
    = if n < 10 then [digitChar n]
      else natDigits (n / 10) ++ [digitChar (n % 10)] := by
  show (if n < 10 then [digitChar n]
      else natDigitsGo n (n / 10) ++ [digitChar (n % 10)]) = _
  split
  · rfl
  · next h =>
    rw [natDigitsGo_congr (n / 10) n (n / 10 + 1) (by omega) (by omega)]
    rfl

theorem natDigits_ne_nil (n : Nat) : natDigits n ≠ [] := by
  rw [natDigits_eq]
  split <;> simp

theorem foldl_valOfDigits_natDigits (n : Nat) : ∀ a : Nat,
    (natDigits n).foldl (fun a c => 10 * a + digitVal c) a
      = a * 10 ^ (natDigits n).length + n := by
  induction n using Nat.strong_induction_on with
  | _ n ih =>
    intro a
    rw [natDigits_eq]
    split
    · next h =>
      simp [digitVal_digitChar h]
      ring
    · next h =>
      rw [List.foldl_append, List.length_append]
      rw [ih (n / 10) (Nat.div_lt_self (by omega) (by omega)) a]
      simp [digitVal_digitChar (Nat.mod_lt n (by omega))]
      have h10 : 10 * (n / 10) + n % 10 = n := Nat.div_add_mod n 10
      ring_nf
      omega

theorem valOfDigits_natDigits (n : Nat) : valOfDigits (natDigits n) = n := by
  have := foldl_valOfDigits_natDigits n 0
  simpa [valOfDigits] using this

theorem natDigits_injective : Function.Injective natDigits := by
  intro m n h
  have : valOfDigits (natDigits m) = valOfDigits (natDigits n) := by rw [h]
  rwa [valOfDigits_natDigits, valOfDigits_natDigits] at this

theorem natDigits_all_isDigit (n : Nat) : ∀ c ∈ natDigits n, c.isDigit = true := by
  induction n using Nat.strong_induction_on with
  | _ n ih =>
    intro c hc
    rw [natDigits_eq] at hc
    split at hc
    · simp at hc
      subst hc
      exact digitChar_isDigit n
    · next h =>
      rcases List.mem_append.mp hc with h1 | h1
      · exact ih (n / 10) (Nat.div_lt_self (by omega) (by omega)) c h1
      · simp at h1
        subst h1
        exact digitChar_isDigit (n % 10)

theorem intStr_nonneg {n : Int} (h : 0 ≤ n) : intStr n = natDigits n.toNat := by
  rw [intStr, if_neg (by omega)]

theorem intStr_inj_nonneg {a b : Int} (ha : 0 ≤ a) (hb : 0 ≤ b)
    (h : intStr a = intStr b) : a = b := by
  rw [intStr_nonneg ha, intStr_nonneg hb] at h
  have := natDigits_injective h
  omega

theorem dot_not_mem_intStr {n : Int} (h : 0 ≤ n) : '.' ∉ intStr n := by
  rw [intStr_nonneg h]
  intro hmem
  have := natDigits_all_isDigit n.toNat '.' hmem
  simp [Char.isDigit] at this

/-! ### Arithmetic facts about the batch plan -/

theorem numBatches_eq_ediv {lim : Int} (pages : Int) (hl : 0 < lim) :
    numBatches lim pages = (pages + lim - 1) / lim :=
  Int.fdiv_eq_ediv _ (le_of_lt hl)

theorem le_mul_numBatches {lim : Int} (pages : Int) (hl : 0 < lim) :
    pages ≤ numBatches lim pages * lim := by
  rw [numBatches_eq_ediv pages hl]
  have h := Int.lt_ediv_add_one_mul_self (pages + lim - 1) hl
  rw [Int.add_mul, Int.one_mul] at h
  linarith

theorem mul_numBatches_le {lim : Int} (pages : Int) (hl : 0 < lim) :
    numBatches lim pages * lim ≤ pages + lim - 1 := by
  rw [numBatches_eq_ediv pages hl]
  exact (Int.le_ediv_iff_mul_le hl).mp (le_refl _)

theorem numBatches_pos {lim pages : Int} (hl : 0 < lim) (hp : 1 ≤ pages) :
    1 ≤ numBatches lim pages := by
  rw [numBatches_eq_ediv pages hl]
  rw [Int.le_ediv_iff_mul_le hl]
  linarith

theorem numBatches_nonpos {lim pages : Int} (hl : 0 < lim) (hp : pages ≤ 0) :
    numBatches lim pages ≤ 0 := by
  unfold numBatches
  rcases le_or_lt 0 (pages + lim - 1) with h | h
  · rw [Int.fdiv_eq_ediv _ (le_of_lt hl), Int.ediv_eq_zero_of_lt h (by linarith)]
  · exact le_of_lt (Int.fdiv_neg' h hl)

theorem mul_le_of_index_lt {lim : Int} (c : Int) (hl : 0 < lim) {x : Int}
    (hx : x < c) : (x + 1) * lim ≤ c * lim :=
  mul_le_mul_of_nonneg_right (by omega) (le_of_lt hl)

theorem batchBounds_fst (lim pages : Int) (x : Nat) :
    (batchBounds lim pages x).1 = 1 + (x : Int) * lim := rfl

theorem batchBounds_snd_eq_min (lim pages : Int) (x : Nat) :
    (batchBounds lim pages x).2 = min (((x : Int) + 1) * lim) pages := by
  show (if ((x : Int) + 1) * lim < pages then ((x : Int) + 1) * lim else pages) = _
  rcases le_or_lt pages (((x : Int) + 1) * lim) with h | h
  · rw [if_neg (not_lt.mpr h), min_eq_right h]
  · rw [if_pos h, min_eq_left (le_of_lt h)]

theorem planBatches_length (lim pages : Int) :
    (planBatches lim pages).length = (numBatches lim pages).toNat := by
  simp [planBatches]

theorem planBatches_getElem (lim pages : Int) (x : Nat)
    (hx : x < (numBatches lim pages).toNat) :
    (planBatches lim pages)[x]? = some (batchBounds lim pages x) := by
  simp [planBatches, List.getElem?_map, List.getElem?_range, hx]

/-- C1: for every `limit > 0` and every resolved range with
`total = end - start + 1 ≥ 1`, the batch loop produces exactly
`ceil(total/limit)` batches (characterised by `total ≤ count * limit` and
`(count - 1) * limit < total`), whose local ranges are
`(1 + x*limit, min ((x+1)*limit) total)`, contiguous, non-overlapping, and
whose union is exactly `[1, total]`. -/
theorem claim_C1_batch_plan_correct (lim pages : Int) (hl : 0 < lim) (hp : 1 ≤ pages) :
    (((planBatches lim pages).length : Int) = numBatches lim pages
      ∧ pages ≤ numBatches lim pages * lim
      ∧ (numBatches lim pages - 1) * lim < pages)
    ∧ (∀ x : Nat, (x : Int) < numBatches lim pages →
        (planBatches lim pages)[x]? =
          some (1 + (x : Int) * lim, min (((x : Int) + 1) * lim) pages))
    ∧ (∀ x : Nat, (x : Int) + 1 < numBatches lim pages →
        (batchBounds lim pages (x + 1)).1 = (batchBounds lim pages x).2 + 1)
    ∧ (∀ x y : Nat, x < y →
        (batchBounds lim pages x).2 < (batchBounds lim pages y).1)
    ∧ (∀ pg : Int, (1 ≤ pg ∧ pg ≤ pages) ↔
        ∃ b ∈ planBatches lim pages, b.1 ≤ pg ∧ pg ≤ b.2) := by
  have hpos := numBatches_pos hl hp
  have hub := mul_numBatches_le pages hl
  have hlb := le_mul_numBatches pages hl
  refine ⟨⟨?_, hlb, ?_⟩, ?_, ?_, ?_, ?_⟩
  · rw [planBatches_length]
    exact Int.toNat_of_nonneg (by linarith)
  · have hexp : (numBatches lim pages - 1) * lim
        = numBatches lim pages * lim - lim := by ring
    linarith
  · intro x hx
    have hx2 : x < (numBatches lim pages).toNat := by omega
    rw [planBatches_getElem _ _ _ hx2, ← batchBounds_fst lim pages x,
      ← batchBounds_snd_eq_min lim pages x]
  · intro x hx
    rw [batchBounds_fst, batchBounds_snd_eq_min]
    have hle : ((x : Int) + 1) * lim ≤ pages := by
      have h1 := mul_le_of_index_lt (numBatches lim pages) hl hx
      have hexp : ((x : Int) + 1 + 1) * lim = ((x : Int) + 1) * lim + lim := by ring
      linarith
    rw [min_eq_left hle]
    push_cast
    ring
  · intro x y hxy
    rw [batchBounds_fst, batchBounds_snd_eq_min]
    have h1 : ((x : Int) + 1) * lim ≤ (y : Int) * lim :=
      mul_le_mul_of_nonneg_right (by exact_mod_cast hxy) (le_of_lt hl)
    have h2 : min (((x : Int) + 1) * lim) pages ≤ ((x : Int) + 1) * lim :=
      min_le_left _ _
    linarith
  · intro pg
    constructor
    · rintro ⟨h1, h2⟩
      have hq0 : 0 ≤ (pg - 1) / lim := Int.ediv_nonneg (by linarith) (le_of_lt hl)
      have hql : (pg - 1) / lim * lim ≤ pg - 1 :=
        (Int.le_ediv_iff_mul_le hl).mp (le_refl _)
      have hqu : pg - 1 < ((pg - 1) / lim + 1) * lim :=
        Int.lt_ediv_add_one_mul_self (pg - 1) hl
      have hqc : (pg - 1) / lim < numBatches lim pages := by
        rw [numBatches_eq_ediv pages hl]
        have : (pg - 1) / lim + 1 ≤ (pages + lim - 1) / lim := by
          rw [Int.le_ediv_iff_mul_le hl]
          have hexp : ((pg - 1) / lim + 1) * lim = (pg - 1) / lim * lim + lim := by
            ring
          linarith
        linarith
      refine ⟨batchBounds lim pages ((pg - 1) / lim).toNat, ?_, ?_, ?_⟩
      · apply List.mem_map_of_mem
        apply List.mem_range.mpr
        omega
      · rw [batchBounds_fst, Int.toNat_of_nonneg hq0]
        linarith
      · rw [batchBounds_snd_eq_min, Int.toNat_of_nonneg hq0]
        exact le_min (by linarith) h2
    · rintro ⟨b, hb, hb1, hb2⟩
      rcases List.mem_map.mp hb with ⟨x, _, hxb⟩
      subst hxb
      rw [batchBounds_fst] at hb1
      rw [batchBounds_snd_eq_min] at hb2
      have hx0 : (0 : Int) ≤ (x : Int) * lim :=
        mul_nonneg (Int.natCast_nonneg x) (le_of_lt hl)
      exact ⟨by linarith, le_trans hb2 (min_le_right _ _)⟩

/-! ### Facts about the regex search -/

theorem matchValueAt_cons_ne {c : Char} (hc : c ≠ 'v') (docFieldId s : List Char) :
    matchValueAt docFieldId (c :: s) = none := by
  have hd : dropLead ("value=".toList) (c :: s) = none := by
    show dropLead ('v' :: "alue=".toList) (c :: s) = none
    rw [dropLead, if_neg (fun h => hc h.symm)]
  rw [matchValueAt, hd]

theorem reSearch_append_skip (docFieldId : List Char) (u : List Char)
    (hu : ∀ c ∈ u, c ≠ 'v') (s : List Char) :
    reSearch docFieldId (u ++ s) = reSearch docFieldId s := by
  induction u with
  | nil => rfl
  | cons c u ih =>
    rw [List.cons_append, reSearch,
      matchValueAt_cons_ne (hu c (List.mem_cons_self c u)) docFieldId]
    exact ih (fun a ha => hu a (List.mem_cons_of_mem c ha))

theorem reSearch_start_startTag (s : List Char) :
    reSearch DETAIL_START_ID (startTagC ++ s) = some ['1', '2'] := rfl

theorem reSearch_end_startTag (s : List Char) :
    reSearch DETAIL_END_ID (startTagC ++ s) = reSearch DETAIL_END_ID s := by
  show reSearch DETAIL_END_ID (startTagTail ++ s) = reSearch DETAIL_END_ID s
  exact reSearch_append_skip DETAIL_END_ID startTagTail (by decide) s

theorem reSearch_end_endTag (s : List Char) :
    reSearch DETAIL_END_ID (endTagC ++ s) = some ['4', '7'] := rfl

/-- Witness for C1 at `limit = 10`, `total = 25`. -/
theorem claim_C1_batch_plan_correct_witness :
    (0 < (10 : Int)) ∧ (1 ≤ (25 : Int)) ∧
    ((((planBatches 10 25).length : Int) = numBatches 10 25
      ∧ (25 : Int) ≤ numBatches 10 25 * 10
      ∧ (numBatches 10 25 - 1) * 10 < 25)
    ∧ (∀ x : Nat, (x : Int) < numBatches 10 25 →
        (planBatches 10 25)[x]? =
          some (1 + (x : Int) * 10, min (((x : Int) + 1) * 10) 25))
    ∧ (∀ x : Nat, (x : Int) + 1 < numBatches 10 25 →
        (batchBounds 10 25 (x + 1)).1 = (batchBounds 10 25 x).2 + 1)
    ∧ (∀ x y : Nat, x < y →
        (batchBounds 10 25 x).2 < (batchBounds 10 25 y).1)
    ∧ (∀ pg : Int, (1 ≤ pg ∧ pg ≤ 25) ↔
        ∃ b ∈ planBatches 10 25, b.1 ≤ pg ∧ pg ≤ b.2)) :=
  ⟨by decide, by decide, claim_C1_batch_plan_correct 10 25 (by decide) (by decide)⟩

/-! ### Facts about run traces and paths -/

theorem run_fetches_wireParams (dir docId urlBase output : List Char)
    (sl gl s e : Int) (f : Nat → Int) (m : Int) :
    (run dir docId urlBase output sl gl s e f m).fetches.map wireParams
      = planBatches gl (e - s + 1) := by
  show ((List.range _).map _).map wireParams = _
  rw [List.map_map, planBatches]
  rfl

theorem rawFilePath_inj {dir : List Char} {a b : Int} (ha : 0 ≤ a) (hb : 0 ≤ b)
    (hab : a ≠ b) : rawFilePath dir a ≠ rawFilePath dir b := by
  intro h
  have h2 := List.append_cancel_left h
  have h3 : intStr a = intStr b := by simpa using h2
  exact hab (intStr_inj_nonneg ha hb h3)

theorem rawFilePath_ne_artifactPath {dir : List Char} {a b : Int} (ha : 0 ≤ a) :
    rawFilePath dir a ≠ artifactPath dir b := by
  intro h
  unfold artifactPath rawFilePath at h
  rw [List.append_assoc] at h
  have h2 := List.append_cancel_left h
  have h3 : intStr a = intStr b ++ ".pdf".toList := by simpa using h2
  have hdot : '.' ∈ intStr a := by
    rw [h3]
    exact List.mem_append_right _ (by decide)
  exact dot_not_mem_intStr ha hdot

/-! ### Claim theorems (C2–C10) -/

/-- C7: on a detail-page body whose start field is tagged `value="12"` and
whose end field is tagged `value="47"`, with surrounding content that cannot
begin a `value=` match before either field (no `'v'` character in the parts
preceding the two tags), `__detect_pages` parses both bounds as integers and
returns `(12, 47)`, with no further validation. -/
theorem claim_C7_detect_pages (p q r : List Char)
    (hp : ∀ c ∈ p, c ≠ 'v') (hq : ∀ c ∈ q, c ≠ 'v') :
    detectPages (p ++ startTagC ++ q ++ endTagC ++ r) = some (12, 47) := by
  have hstart : reSearch DETAIL_START_ID (p ++ (startTagC ++ (q ++ (endTagC ++ r))))
      = some ['1', '2'] := by
    rw [reSearch_append_skip DETAIL_START_ID p hp, reSearch_start_startTag]
  have hend : reSearch DETAIL_END_ID (p ++ (startTagC ++ (q ++ (endTagC ++ r))))
      = some ['4', '7'] := by
    rw [reSearch_append_skip DETAIL_END_ID p hp, reSearch_end_startTag,
      reSearch_append_skip DETAIL_END_ID q hq, reSearch_end_endTag]
  have hassoc : p ++ startTagC ++ q ++ endTagC ++ r
      = p ++ (startTagC ++ (q ++ (endTagC ++ r))) := by
    simp [List.append_assoc]
  rw [detectPages, hassoc, hstart, hend]
  decide

/-- Witness for C7 on a concrete crafted detail-page fixture. -/
theorem claim_C7_detect_pages_witness :
    (∀ c ∈ fixtureP, c ≠ 'v')
    ∧ (∀ c ∈ fixtureQ, c ≠ 'v')
    ∧ detectPages (fixtureP ++ startTagC ++ fixtureQ ++ endTagC ++ fixtureR)
        = some (12, 47) :=
  ⟨by decide, by decide,
    claim_C7_detect_pages fixtureP fixtureQ fixtureR (by decide) (by decide)⟩

/-- C2 counterexample: with `from = 1`, `to = 25`, `limit = 10` the three
fetch calls carry wire parameters `(1,10), (11,20), (21,25)` — the local
numbering continues across batches instead of restarting at 1, so the
claimed wire sequence `(1,10), (1,10), (1,5)` is not what is sent. -/
theorem claim_C2_counterexample :
    (run dirT docId100 [] [] 10 10 1 25 (fun _ => 0) 0).fetches.map
        wireParams = [(1, 10), (11, 20), (21, 25)]
    ∧ (run dirT docId100 [] [] 10 10 1 25 (fun _ => 0) 0).fetches.map
        wireParams ≠ [(1, 10), (1, 10), (1, 5)] := by
  decide

/-- C2 amended: with explicit bounds `from = 1`, `to = 25` and `limit = 10`,
the run issues exactly 3 fetch calls with wire parameters
`(1,10), (11,20), (21,25)` (window-relative numbering continuing across
batches), followed by exactly one `pdfunite` invocation, and the run
completes successfully. -/
theorem claim_C2_amended_run :
    (run dirT docId100 [] [] 10 10 1 25 (fun _ => 0) 0).fetches.map
        wireParams = [(1, 10), (11, 20), (21, 25)]
    ∧ (run dirT docId100 [] [] 10 10 1 25 (fun _ => 0) 0).mergeCalls = 1
    ∧ (run dirT docId100 [] [] 10 10 1 25 (fun _ => 0) 0).exitSuccess
        = true := by
  decide

/-- C3 counterexample: at `start = 1`, `end = 0` (`total = 0 < 1`) the run
raises no error at all: it performs zero fetches and still proceeds to the
assembly step, completing as a success — there is no `InvalidRange` failure. -/
theorem claim_C3_counterexample :
    (run dirT docId100 [] [] 20 20 1 0 (fun _ => 0) 0).fetches = []
    ∧ (run dirT docId100 [] [] 20 20 1 0 (fun _ => 0) 0).mergeCalls = 1
    ∧ (run dirT docId100 [] [] 20 20 1 0 (fun _ => 0) 0).exitSuccess
        = true := by
  decide

/-- C3 amended: for every resolved range with `total = end - start + 1 < 1`,
the loop count `(total + limit - 1) // limit` is non-positive, so the batch
loop runs zero times and the run proceeds directly to assembly; no
`InvalidRange` error exists in the code. -/
theorem claim_C3_empty_plan (dir docId urlBase output : List Char)
    (lim s e : Int) (stripExits : Nat → Int) (m : Int)
    (hl : 0 < lim) (he : e < s) :
    (run dir docId urlBase output lim lim s e stripExits m).fetches = []
    ∧ (run dir docId urlBase output lim lim s e stripExits m).mergeCalls = 1
    ∧ (run dir docId urlBase output lim lim s e stripExits m).exitSuccess = true := by
  have h0 : (numBatches lim (e - s + 1)).toNat = 0 :=
    Int.toNat_of_nonpos (numBatches_nonpos hl (by omega))
  refine ⟨?_, rfl, rfl⟩
  show ((List.range (numBatches lim (e - s + 1)).toNat).map _) = []
  rw [h0]
  rfl

/-- Witness for C3 (amended) at `limit = 20`, `start = 1`, `end = 0`. -/
theorem claim_C3_empty_plan_witness :
    (0 : Int) < 20 ∧ (0 : Int) < 1 ∧
    ((run [] [] [] [] 20 20 1 0 (fun _ => 0) 0).fetches = []
      ∧ (run [] [] [] [] 20 20 1 0 (fun _ => 0) 0).mergeCalls = 1
      ∧ (run [] [] [] [] 20 20 1 0 (fun _ => 0) 0).exitSuccess = true) :=
  ⟨by decide, by decide,
    claim_C3_empty_plan [] [] [] [] 20 1 0 (fun _ => 0) 0 (by decide) (by decide)⟩

/-- C4: every `__download_pdf(start, end)` call invokes `pdftk` on the raw
file selecting pages `2` through `end - start + 2`, writes the result to a
new path with the `.pdf` extension, and deletes the raw intermediate file;
for the 4-page batch `(1, 4)` — whose raw response has `4 + 1 = 5` pages —
the command selects pages `2-5`. -/
theorem claim_C4_strip_invocation (dir docId urlBase : List Char) (s e c : Int) :
    (downloadPdf dir docId urlBase s e c).stripCmd
        = specStripCmd (downloadPdf dir docId urlBase s e c).rawPath
            2 (e - s + 2) (downloadPdf dir docId urlBase s e c).outPath
    ∧ (downloadPdf dir docId urlBase s e c).outPath
        = (downloadPdf dir docId urlBase s e c).rawPath ++ ".pdf".toList
    ∧ (downloadPdf dir docId urlBase s e c).rawRemoved = true
    ∧ (downloadPdf dirT docId100 [] 1 4 0).stripCmd
        = "pdftk /t/1 cat 2-5 output /t/1.pdf".toList := by
  refine ⟨?_, rfl, rfl, by decide⟩
  show cmdRemoveFirstPage (rawFilePath dir s) (e - s + 2)
      (rawFilePath dir s ++ ".pdf".toList)
    = specStripCmd (rawFilePath dir s) 2 (e - s + 2)
      (rawFilePath dir s ++ ".pdf".toList)
  have hfuse : " cat ".toList ++ intStr 2 ++ "-".toList = " cat 2-".toList := by
    decide
  rw [specStripCmd, hfuse]
  rfl

/-- C5 counterexample: a run in which `pdfunite` exits with status 1 still
completes as a success — `run` discards the value `__merge_pdfs` returns, so
no `AssemblyFailure` is signalled. -/
theorem claim_C5_counterexample :
    (run dirT docId100 [] [] 20 20 1 5 (fun _ => 0) 1).mergeExit = 1
    ∧ (run dirT docId100 [] [] 20 20 1 5 (fun _ => 0) 1).exitSuccess
        = true := by
  decide

/-- C5 amended: `__merge_pdfs` returns the concatenation utility's exit
status, but `run` ignores it: whatever the exit status, the merge is invoked
exactly once and the run completes as if successful. -/
theorem claim_C5_merge_exit_ignored (dir docId urlBase output : List Char)
    (sl gl s e : Int) (f : Nat → Int) (m : Int) :
    (run dir docId urlBase output sl gl s e f m).mergeExit = m
    ∧ (run dir docId urlBase output sl gl s e f m).mergeCalls = 1
    ∧ (run dir docId urlBase output sl gl s e f m).exitSuccess = true :=
  ⟨rfl, rfl, rfl⟩

/-- C6: with the default `limit = 20` and a 101-page range, the plan
produces batches with `firstPage` values `1, 21, 41, 61, 81, 101`, and the
artifact name `101.pdf` sorts lexicographically *before* `21.pdf` although
`21 < 101` — the glob order `pdfunite` receives does not match the batches'
`firstPage` order once offsets cross a digit-count boundary. -/
theorem claim_C6_glob_misorder :
    (planBatches 20 101).map Prod.fst = [1, 21, 41, 61, 81, 101]
    ∧ ((21 : Int) < 101)
    ∧ lexLt (artifactFileName 101) (artifactFileName 21) = true
    ∧ lexLt (artifactFileName 21) (artifactFileName 101) = false := by
  decide

/-- C8: with `self.limit = 5` but module-global `limit = 10` the run plans
with the global value — the wire parameters follow `planBatches 10`, which
differs from `planBatches 5` — and the batch sequence does not depend on
`self.limit` at all (the last conjunct: changing `self.limit` never changes
the trace). -/
theorem claim_C8_outer_scope_limit :
    (run dirT docId100 [] [] 5 10 1 20 (fun _ => 0) 0).fetches.map
        wireParams = planBatches 10 20
    ∧ planBatches 10 20 ≠ planBatches 5 20
    ∧ (run dirT docId100 [] [] 5 10 1 20 (fun _ => 0) 0).fetches.map
        wireParams = [(1, 10), (11, 20)]
    ∧ (∀ (dir docId urlBase output : List Char) (a b gl s e : Int)
          (f : Nat → Int) (m : Int),
        run dir docId urlBase output a gl s e f m
          = run dir docId urlBase output b gl s e f m) :=
  ⟨by decide, by decide, by decide,
    fun dir docId urlBase output a b gl s e f m => rfl⟩

/-- C9: `__download_pdf` returns `True` unconditionally — in particular
regardless of the `pdftk` exit status — and the run's control flow (the
fetch sequence, the single merge call, the successful completion) is
identical for any assignment of strip-utility exit statuses. -/
theorem claim_C9_fetch_always_succeeds :
    (∀ (dir docId urlBase : List Char) (s e c : Int),
        (downloadPdf dir docId urlBase s e c).result = true)
    ∧ (∀ (dir docId urlBase output : List Char) (sl gl s e : Int)
          (f g : Nat → Int) (m : Int),
        (run dir docId urlBase output sl gl s e f m).fetches.map wireParams
            = (run dir docId urlBase output sl gl s e g m).fetches.map wireParams
          ∧ (run dir docId urlBase output sl gl s e f m).mergeCalls
            = (run dir docId urlBase output sl gl s e g m).mergeCalls
          ∧ (run dir docId urlBase output sl gl s e f m).exitSuccess = true) := by
  refine ⟨fun _ _ _ _ _ _ => rfl, ?_⟩
  intro dir docId urlBase output sl gl s e f g m
  refine ⟨?_, rfl, rfl⟩
  rw [run_fetches_wireParams, run_fetches_wireParams]

/-- C10: for `limit > 0`, the planned batches have strictly increasing
`firstPage` values, and distinct batches use pairwise distinct raw-file and
artifact paths (raw/raw, artifact/artifact, and raw/artifact in either
direction), so no batch overwrites another batch's files; the final
conjunct ties these paths to the ones `__download_pdf` actually writes. -/
theorem claim_C10_distinct_paths (dir : List Char) (lim pages : Int)
    (hl : 0 < lim) :
    (planBatches lim pages).Pairwise (fun a b =>
      a.1 < b.1
      ∧ rawFilePath dir a.1 ≠ rawFilePath dir b.1
      ∧ artifactPath dir a.1 ≠ artifactPath dir b.1
      ∧ rawFilePath dir a.1 ≠ artifactPath dir b.1
      ∧ artifactPath dir a.1 ≠ rawFilePath dir b.1)
    ∧ (∀ (docId urlBase : List Char) (s e c : Int),
        (downloadPdf dir docId urlBase s e c).rawPath = rawFilePath dir s
        ∧ (downloadPdf dir docId urlBase s e c).outPath = artifactPath dir s) := by
  refine ⟨?_, fun _ _ _ _ _ => ⟨rfl, rfl⟩⟩
  unfold planBatches
  refine List.Pairwise.map _ ?_ (List.pairwise_lt_range _)
  intro x y hxy
  have hfx : (batchBounds lim pages x).1 = 1 + (x : Int) * lim :=
    batchBounds_fst lim pages x
  have hfy : (batchBounds lim pages y).1 = 1 + (y : Int) * lim :=
    batchBounds_fst lim pages y
  have hxy' : ((x : Int)) * lim < ((y : Int)) * lim :=
    mul_lt_mul_of_pos_right (by exact_mod_cast hxy) hl
  have hax : (0 : Int) ≤ (batchBounds lim pages x).1 := by
    rw [hfx]
    have := mul_nonneg (Int.natCast_nonneg x) (le_of_lt hl)
    linarith
  have hay : (0 : Int) ≤ (batchBounds lim pages y).1 := by
    rw [hfy]
    have := mul_nonneg (Int.natCast_nonneg y) (le_of_lt hl)
    linarith
  have hlt : (batchBounds lim pages x).1 < (batchBounds lim pages y).1 := by
    rw [hfx, hfy]
    linarith
  have hne : (batchBounds lim pages x).1 ≠ (batchBounds lim pages y).1 :=
    ne_of_lt hlt
  refine ⟨hlt, rawFilePath_inj hax hay hne, ?_, rawFilePath_ne_artifactPath hax, ?_⟩
  · intro h
    exact rawFilePath_inj hax hay hne (List.append_cancel_right h)
  · intro h
    exact rawFilePath_ne_artifactPath hay h.symm

/-- Witness for C10 at `limit = 1`, `total = 10` (ten batches, whose
`firstPage` values 1–10 cross the one-digit/two-digit boundary). -/
theorem claim_C10_distinct_paths_witness :
    (0 : Int) < 1 ∧
    ((planBatches 1 10).Pairwise (fun a b =>
      a.1 < b.1
      ∧ rawFilePath dirT a.1 ≠ rawFilePath dirT b.1
      ∧ artifactPath dirT a.1 ≠ artifactPath dirT b.1
      ∧ rawFilePath dirT a.1 ≠ artifactPath dirT b.1
      ∧ artifactPath dirT a.1 ≠ rawFilePath dirT b.1)
    ∧ (∀ (docId urlBase : List Char) (s e c : Int),
        (downloadPdf dirT docId urlBase s e c).rawPath
            = rawFilePath dirT s
        ∧ (downloadPdf dirT docId urlBase s e c).outPath
            = artifactPath dirT s)) :=
  ⟨by decide, claim_C10_distinct_paths dirT 1 10 (by decide)⟩

end KrameriusPy
